import Mathlib

/-
Verification of the SelectorSpy interception registry (src/selectorspy.js).

The module keeps a global array `spies` of spy records; each record is a
function object carrying the fields `native` (the member value captured at
install time), `namespace` (the owner object), `fn` (the member name) and
`bypassed` (the suppression list).  The operations are
`spy` (install), `retreive`, `unspy` (restore) and `unspyAll`.

Shallow embedding choices:
- owner objects are identified by a natural number (JS object identity is
  reference identity, so an opaque id is faithful);
- member names are strings, as in the source;
- function values are represented by `Val`: a pre-existing function
  (`Val.native` with an identity tag), a wrapper produced by an install
  (`Val.wrapper` with a fresh identity tag), or the undefined value;
- a factory (the `handler` argument of `spy`) is modelled by the suppression
  targets it pushes into the `bypassed` array plus the behaviour of the
  replacement function it returns (`Body`), since the registry only ever
  observes those two effects of a factory;
- the state `St` carries the member store, the `spies` array, a fresh-id
  counter for newly created wrapper functions, and an event log used to
  count executions of replacement logic and of native functions.
-/

namespace SelectorSpy

/-- Function-like values stored in object members.  Equality of `Val` is
reference identity of the underlying JS function. -/
inductive Val where
  | native (id : Nat)
  | wrapper (id : Nat)
  | undefV
deriving DecidableEq, Repr

/-- A suppression target, as pushed into the `bypassed` array by a factory:
the source stores `{namespace, fn}`; `ns` stands for the owner object. -/
structure Target where
  ns : Nat
  fn : String
deriving DecidableEq, Repr

/-- Behaviour of a replacement function (the value returned by a factory).
`emit l` is an observable action tagged `l` (a counter increment, a log
line); `callMember ns fn k` invokes the current value of the member
`ns[fn]` and continues with `k`; `throwB` raises an exception. -/
inductive Body where
  | ret
  | throwB
  | emit (l : Nat) (k : Body)
  | callMember (ns : Nat) (fn : String) (k : Body)
deriving DecidableEq, Repr

/-- A factory (`handler` in the source): the suppression targets it pushes
into the `bypassed` array handed to it, and the behaviour of the
replacement function it returns. -/
structure Factory where
  targets : List Target
  body : Body
deriving DecidableEq, Repr

/-- One entry of the `bypassed` array of a spy record.  `handler` is the
`handler` property that line 142 of the source assigns when a later
install targets this entry; it starts out absent (JS `undefined`). -/
structure BypassEntry where
  ns : Nat
  fn : String
  handler : Option Factory
deriving DecidableEq, Repr

/-- A spy record (`theSpy` in the source): the replacement function object
together with the properties assigned at lines 148-151.  `wrapId` is the
identity of the wrapper function installed at line 154, which lets a call
on the member recover its record. -/
structure Spy where
  wrapId : Nat
  body : Body
  native : Val
  ns : Nat
  fn : String
  bypassed : List BypassEntry
deriving DecidableEq, Repr

/-- Events recorded while running replacements: `ecall l` marks execution
of the replacement action tagged `l`; `enat id` marks an invocation of the
native function `id`. -/
inductive Event where
  | ecall (l : Nat)
  | enat (id : Nat)
deriving DecidableEq, Repr

/-- Errors raised by the module: the explicit throw at line 134 of the
source ("Impossible to bypass its own selector."), the TypeError raised by
calling a value that is not a function, and an exception thrown by a
replacement body. -/
inductive Err where
  | selfBypass
  | notFunction
  | userThrow
deriving DecidableEq, Repr

/-- The global state: the member store of all owner objects, the `spies`
array, a counter supplying identities for newly created wrapper functions,
and the event log. -/
structure St where
  mem : Nat → String → Val
  spies : List Spy
  fresh : Nat
  log : List Event

/-- Write one member of one owner. -/
def setMem (m : Nat → String → Val) (ns : Nat) (fn : String) (v : Val) :
    Nat → String → Val :=
  fun n f => if n = ns ∧ f = fn then v else m n f

/-- First record of the `spies` array matching `(ns, fn)`; this is the
lookup loop shared by `retreive` (lines 181-185) and `unspy`
(lines 200-206). -/
def findSpy : List Spy → Nat → String → Option Spy
  | [], _, _ => none
  | s :: rest, ns, fn =>
    if s.ns = ns ∧ s.fn = fn then some s else findSpy rest ns fn

/-- Remove the first record matching `(ns, fn)`: the `break` at line 204
followed by the `splice(i, 1)` at line 209. -/
def eraseFirst : List Spy → Nat → String → List Spy
  | [], _, _ => []
  | s :: rest, ns, fn =>
    if s.ns = ns ∧ s.fn = fn then rest else s :: eraseFirst rest ns fn

/-- `SelectorSpy.retreive` (lines 180-188): if a record matches, return the
CURRENT value of `namespace[fnName]` (the source reads
`spies[i].namespace[fnName]`, not `spies[i].native`); otherwise null. -/
def retreive (st : St) (ns : Nat) (fn : String) : Option Val :=
  match findSpy st.spies ns fn with
  | some _ => some (st.mem ns fn)
  | none => none

/-- `SelectorSpy.unspy` (lines 197-213): on a match, read the current
member into `handler`, write the recorded `native` back, splice the record
out, and return `handler || null`; otherwise leave the state alone and
return null. -/
def unspy (st : St) (ns : Nat) (fn : String) : St × Option Val :=
  match findSpy st.spies ns fn with
  | some s =>
    let handler := st.mem ns fn
    ({ st with
        mem := setMem st.mem ns fn s.native,
        spies := eraseFirst st.spies ns fn },
      if handler = Val.undefV then none else some handler)
  | none => (st, none)

/-- `SelectorSpy.unspyAll` (lines 218-226): write every recorded `native`
back in array (installation) order and empty the `spies` array. -/
def unspyAll (st : St) : St :=
  { st with
      mem := st.spies.foldl (fun m s => setMem m s.ns s.fn s.native) st.mem,
      spies := [] }

/-- Lines 132-136 of `spy`: the factory declared `(ns, fn)` itself among
its suppression targets. -/
def selfTargets (h : Factory) (ns : Nat) (fn : String) : Bool :=
  h.targets.any (fun t => t.ns = ns ∧ t.fn = fn)

/-- The fresh `bypassed` array built while the factory runs: one entry per
pushed target, with no saved `handler` property yet. -/
def mkBypassed (ts : List Target) : List BypassEntry :=
  ts.map (fun t => { ns := t.ns, fn := t.fn, handler := none })

/-- Lines 139-146 of `spy`: in one existing record, store the new handler
into the FIRST `bypassed` entry matching `(ns, fn)` (the loop breaks after
the first hit). -/
def saveHandlerOne (ns : Nat) (fn : String) (h : Factory) :
    List BypassEntry → List BypassEntry
  | [] => []
  | b :: rest =>
    if b.ns = ns ∧ b.fn = fn then { b with handler := some h } :: rest
    else b :: saveHandlerOne ns fn h rest

/-- The record update applied by lines 139-146 to one existing record. -/
def saveIn (ns : Nat) (fn : String) (h : Factory) (s : Spy) : Spy :=
  { s with bypassed := saveHandlerOne ns fn h s.bypassed }

/-- The record assembled at lines 148-151: `theSpy.native` is the member
value at that point, i.e. after the unconditional `unspy`. -/
def newSpy (st : St) (ns : Nat) (fn : String) (hf : Factory) : Spy :=
  { wrapId := st.fresh, body := hf.body, native := st.mem ns fn,
    ns := ns, fn := fn, bypassed := mkBypassed hf.targets }

/-- `SelectorSpy.spy` (lines 112-171).  The handler may be absent
(`Option Factory`): when the re-entrancy wrapper reinstalls a bypassed
target whose `handler` property was never saved, `spy` is called with
`undefined`, and the call `handler(proxy, bypassed)` raises a TypeError.
The returned state is the state at the moment `spy` returns or throws:
1. `this.unspy(namespace, fnName)` runs first, unconditionally;
2. the factory runs, filling `bypassed` and returning the replacement;
3. the self-bypass check throws before any further mutation;
4. the new handler is saved into matching `bypassed` entries of the
   existing records;
5. `native`, `namespace`, `fn`, `bypassed` are recorded, the wrapper is
   installed at `namespace[fnName]`, and the record is pushed. -/
def spy (st : St) (ns : Nat) (fn : String) (handler : Option Factory) :
    St × Option Err :=
  let st1 := (unspy st ns fn).1
  match handler with
  | none => (st1, some Err.notFunction)
  | some h =>
    let bypassed := mkBypassed h.targets
    if bypassed.any (fun b => b.ns = ns ∧ b.fn = fn) then
      (st1, some Err.selfBypass)
    else
      ({ mem := setMem st1.mem ns fn (Val.wrapper st1.fresh),
         spies := st1.spies.map (saveIn ns fn h) ++ [newSpy st1 ns fn h],
         fresh := st1.fresh + 1,
         log := st1.log }, none)

/-- Append one event to the log. -/
def pushLog (st : St) (e : Event) : St :=
  { st with log := st.log ++ [e] }

/-- Result of invoking a member: normal return, a propagating exception, or
out of fuel / not a callable situation never reached by the source. -/
inductive CallRes where
  | ok
  | exn (e : Err)
  | stuck
deriving DecidableEq, Repr

/-- Lines 157-159 of the wrapper: `bypassed.forEach(bypass =>
SelectorSpy.unspy(bypass.namespace, bypass.fn))`. -/
def unspyTargets (st : St) (bs : List BypassEntry) : St :=
  bs.foldl (fun acc b => (unspy acc b.ns b.fn).1) st

/-- Lines 163-165 of the wrapper: `bypassed.forEach(bypass =>
SelectorSpy.spy(bypass.namespace, bypass.fn, bypass.handler))`.  A JS
`forEach` aborts when the callback throws, so an error from `spy` stops
the loop and propagates. -/
def reinstallTargets (st : St) : List BypassEntry → St × Option Err
  | [] => (st, none)
  | b :: rest =>
    match spy st b.ns b.fn b.handler with
    | (st1, none) => reinstallTargets st1 rest
    | (st1, some e) => (st1, some e)

/-- Run a replacement body.  `call` invokes a member value; it is
instantiated with `callVal` at the current fuel. -/
def runBody (call : St → Val → St × CallRes) : St → Body → St × CallRes
  | st, Body.ret => (st, CallRes.ok)
  | st, Body.throwB => (st, CallRes.exn Err.userThrow)
  | st, Body.emit l k => runBody call (pushLog st (Event.ecall l)) k
  | st, Body.callMember ns fn k =>
    match call st (st.mem ns fn) with
    | (st1, CallRes.ok) => runBody call st1 k
    | r => r

/-- Invoke a function value, with fuel bounding the nesting depth of
wrapper invocations.  A native function runs opaquely (logged).  A wrapper
(lines 154-168 of the source) recovers its record from the registry, runs
the suppression loop, runs the replacement body, and — only when the body
returned normally, since the source has no try/finally — runs the
reinstallation loop, whose own failure propagates.  The registry lookup by
`wrapId` stands in for the closure over `theSpy`/`bypassed`; it agrees
with the closure whenever the record is still installed, which is the case
in every behaviour the claims quantify over. -/
def callVal : Nat → St → Val → St × CallRes
  | 0, st, _ => (st, CallRes.stuck)
  | _ + 1, st, Val.native id => (pushLog st (Event.enat id), CallRes.ok)
  | _ + 1, st, Val.undefV => (st, CallRes.exn Err.notFunction)
  | fuel + 1, st, Val.wrapper wid =>
    match st.spies.find? (fun s => s.wrapId = wid) with
    | none => (st, CallRes.stuck)
    | some s =>
      let st1 := unspyTargets st s.bypassed
      match runBody (callVal fuel) st1 s.body with
      | (st2, CallRes.ok) =>
        match reinstallTargets st2 s.bypassed with
        | (st3, none) => (st3, CallRes.ok)
        | (st3, some e) => (st3, CallRes.exn e)
      | r => r

/-- Operations a client can perform on the module: the three mutating
registry entry points plus invoking a member (which runs a wrapper). -/
inductive Op where
  | ospy (ns : Nat) (fn : String) (h : Option Factory)
  | ounspy (ns : Nat) (fn : String)
  | ounspyAll
  | ocall (fuel : Nat) (ns : Nat) (fn : String)

/-- Apply one operation to the state. -/
def runOp (st : St) : Op → St
  | Op.ospy ns fn h => (spy st ns fn h).1
  | Op.ounspy ns fn => (unspy st ns fn).1
  | Op.ounspyAll => unspyAll st
  | Op.ocall fuel ns fn => (callVal fuel st (st.mem ns fn)).1

/-- Apply a sequence of operations. -/
def runOps (st : St) (ops : List Op) : St :=
  ops.foldl runOp st

/-- The state at module load: a given member store, empty `spies` array,
first fresh id, empty log. -/
def initSt (m : Nat → String → Val) : St :=
  { mem := m, spies := [], fresh := 0, log := [] }

/-- The registry invariant claimed by the spec: no two records of the
`spies` array concern the same `(owner, memberName)` pair. -/
def atMostOne (st : St) : Prop :=
  st.spies.Pairwise (fun a b => ¬(a.ns = b.ns ∧ a.fn = b.fn))

instance (st : St) : Decidable (atMostOne st) :=
  inferInstanceAs
    (Decidable
      (st.spies.Pairwise (fun a b : Spy => ¬(a.ns = b.ns ∧ a.fn = b.fn))))

/-- Number of occurrences of one event in a log. -/
def countE (e : Event) (log : List Event) : Nat :=
  (log.filter (fun x => x = e)).length

/-
Pure model of the invocation proxy (lines 118-126 of the source):

    function proxy(args, context) {
        context = context || theSpy.namespace;
        if (args instanceof Array === false) { args = [args]; }
        return theSpy.native.apply(context, args);
    }

The proxy only inspects two aspects of its inputs — whether the first
argument is an Array instance and whether the second is truthy — and then
performs one call on the recorded native with a receiver and an argument
list.  We model JS values by `JVal` and the effect of the proxy by the
`NativeCall` it issues.
-/

/-- JS values as seen by the proxy: enough structure to decide
`instanceof Array` and truthiness. -/
inductive JVal where
  | undef
  | nullV
  | boolV (b : Bool)
  | numV (n : Int)
  | strV (s : String)
  | objV (id : Nat)
  | arrV (elems : List JVal)

/-- JS truthiness: `undefined`, `null`, `false`, `0`, `""` are falsy;
objects and arrays are always truthy. -/
def truthy : JVal → Bool
  | JVal.undef => false
  | JVal.nullV => false
  | JVal.boolV b => b
  | JVal.numV n => n != 0
  | JVal.strV s => s != ""
  | JVal.objV _ => true
  | JVal.arrV _ => true

/-- `args instanceof Array`. -/
def isArr : JVal → Bool
  | JVal.arrV _ => true
  | _ => false

/-- `if (args instanceof Array === false) { args = [args]; }` followed by
`apply`: the positional argument list the native receives. -/
def toArgList : JVal → List JVal
  | JVal.arrV xs => xs
  | v => [v]

/-- The call the proxy issues on the native function: receiver and
positional argument list. -/
structure NativeCall where
  ctx : JVal
  args : List JVal

/-- The proxy body: `context = context || theSpy.namespace` (an omitted
second argument is `undefined`, hence falsy), then the `apply` on the
recorded native.  `nsV` is the owner object of the record
(`theSpy.namespace`). -/
def proxyCall (nsV : JVal) (args : JVal) (context : JVal) : NativeCall :=
  { ctx := if truthy context then context else nsV,
    args := toArgList args }

/-- `return theSpy.native.apply(context, args)`: the value of the proxy
call is exactly the value of the native call it issues. -/
def proxyRun (native : JVal → List JVal → JVal) (nsV : JVal)
    (args : JVal) (context : JVal) : JVal :=
  native (proxyCall nsV args context).ctx (proxyCall nsV args context).args

/-
Concrete scenario used by several claims: owner object 0 (called A) has a
member "outer" holding native function 100, owner object 1 (called B) has
a member "inner" holding native function 101.
-/

/-- Initial member store of the suppression scenarios. -/
def m0 : Nat → String → Val
  | 0, "outer" => Val.native 100
  | 1, "inner" => Val.native 101
  | _, _ => Val.undefV

/-- Factory of replacement R1 on (A, "outer"): suppression target
(B, "inner"); its replacement logs action 1 and then calls B.inner, the way
a high-level selector function delegates to a lower-level one. -/
def h1 : Factory :=
  { targets := [{ ns := 1, fn := "inner" }],
    body := Body.emit 1 (Body.callMember 1 "inner" Body.ret) }

/-- Factory of replacement R2 on (B, "inner"): no suppression targets; its
replacement logs action 2. -/
def h2 : Factory :=
  { targets := [], body := Body.emit 2 Body.ret }

/-- State after installing R1 on (A, "outer"). -/
def stR1 : St := (spy (initSt m0) 0 "outer" (some h1)).1

/-- State after additionally installing R2 on (B, "inner"). -/
def stR12 : St := (spy stR1 1 "inner" (some h2)).1

/-- The call `A.outer()` performed on `stR12`. -/
def outerCall : St × CallRes := callVal 10 stR12 (stR12.mem 0 "outer")

/-- The subsequent direct call `B.inner()`. -/
def innerCall : St × CallRes :=
  callVal 10 outerCall.1 (outerCall.1.mem 1 "inner")

/-- Factory of the throwing variant of R1: same suppression target
(B, "inner"), but its replacement logs action 1 and then throws. -/
def h1t : Factory :=
  { targets := [{ ns := 1, fn := "inner" }],
    body := Body.emit 1 Body.throwB }

/-- State with the throwing R1 on (A, "outer") and R2 on (B, "inner"). -/
def stT12 : St :=
  (spy ((spy (initSt m0) 0 "outer" (some h1t)).1) 1 "inner" (some h2)).1

/-- The call `A.outer()` performed on `stT12`: the replacement throws
after the suppression loop has run. -/
def outerThrowCall : St × CallRes := callVal 10 stT12 (stT12.mem 0 "outer")

/-- The call `A.outer()` performed on `stR1`, where the suppression target
(B, "inner") was never installed. -/
def outerAloneCall : St × CallRes := callVal 10 stR1 (stR1.mem 0 "outer")

/-- Member store of the `querySelector` scenario of claim C1: owner 0 is
the document, whose member "querySelector" holds native function 7. -/
def mq : Nat → String → Val
  | 0, "querySelector" => Val.native 7
  | _, _ => Val.undefV

/-- A factory with no suppression targets, as in the `querySelector`
example of the module header. -/
def hq : Factory := { targets := [], body := Body.ret }

/-- State after `spy(document, "querySelector", f)`. -/
def stQ : St := (spy (initSt mq) 0 "querySelector" (some hq)).1

/-- A factory that lists its own (owner 0, "outer") as suppression
target. -/
def hself : Factory :=
  { targets := [{ ns := 0, fn := "outer" }], body := Body.ret }

/-
General lemmas about the registry operations.
-/

/-- Reading the member just written. -/
theorem setMem_same (m : Nat → String → Val) (ns : Nat) (fn : String) (v : Val) :
    setMem m ns fn v ns fn = v := by
  simp [setMem]

/-- Reading another member is unaffected by a write. -/
theorem setMem_other (m : Nat → String → Val) (ns : Nat) (fn : String) (v : Val)
    (n : Nat) (f : String) (hne : ¬(n = ns ∧ f = fn)) :
    setMem m ns fn v n f = m n f := by
  simp [setMem, hne]

/-- `findSpy` misses exactly when no record matches. -/
theorem findSpy_eq_none_iff (l : List Spy) (ns : Nat) (fn : String) :
    findSpy l ns fn = none ↔ ∀ s ∈ l, ¬(s.ns = ns ∧ s.fn = fn) := by
  induction l with
  | nil => simp [findSpy]
  | cons a rest ih =>
    by_cases hmatch : a.ns = ns ∧ a.fn = fn
    · simp [findSpy, hmatch]
    · rw [findSpy, if_neg hmatch, ih]
      constructor
      · intro h s hs
        rcases List.mem_cons.mp hs with rfl | hs'
        · exact hmatch
        · exact h s hs'
      · intro h s hs
        exact h s (List.mem_cons_of_mem a hs)

/-- `findSpy` over a concatenation whose first part has no match. -/
theorem findSpy_append_of_none (l₁ l₂ : List Spy) (ns : Nat) (fn : String)
    (hno : findSpy l₁ ns fn = none) :
    findSpy (l₁ ++ l₂) ns fn = findSpy l₂ ns fn := by
  induction l₁ with
  | nil => rfl
  | cons a rest ih =>
    by_cases hmatch : a.ns = ns ∧ a.fn = fn
    · simp [findSpy, hmatch] at hno
    · simp [findSpy, hmatch] at hno ⊢
      exact ih hno

/-- Updating the `bypassed` field of every record commutes with lookup,
because the lookup only reads the `ns` and `fn` fields. -/
theorem findSpy_map_save (l : List Spy) (ns : Nat) (fn : String)
    (a : Nat) (b : String) (h : Factory) :
    findSpy (l.map (saveIn a b h)) ns fn
      = (findSpy l ns fn).map (saveIn a b h) := by
  induction l with
  | nil => rfl
  | cons x rest ih =>
    by_cases hmatch : x.ns = ns ∧ x.fn = fn
    · simp [findSpy, saveIn, hmatch]
    · simp [findSpy, saveIn, hmatch] at ih ⊢
      exact ih

/-- Removing the first match yields a sublist. -/
theorem eraseFirst_sublist (l : List Spy) (ns : Nat) (fn : String) :
    (eraseFirst l ns fn).Sublist l := by
  induction l with
  | nil => simp [eraseFirst]
  | cons a rest ih =>
    by_cases hmatch : a.ns = ns ∧ a.fn = fn
    · simp [eraseFirst, hmatch]
    · simpa [eraseFirst, hmatch] using ih.cons₂ a

/-- If no record matches, removing the first match changes nothing. -/
theorem eraseFirst_of_none (l : List Spy) (ns : Nat) (fn : String)
    (hno : findSpy l ns fn = none) :
    eraseFirst l ns fn = l := by
  induction l with
  | nil => rfl
  | cons a rest ih =>
    by_cases hmatch : a.ns = ns ∧ a.fn = fn
    · simp [findSpy, hmatch] at hno
    · simp [findSpy, hmatch] at hno
      simp [eraseFirst, hmatch, ih hno]

/-- Removing the first match from a concatenation whose first part has no
match. -/
theorem eraseFirst_append_of_none (l₁ l₂ : List Spy) (ns : Nat) (fn : String)
    (hno : findSpy l₁ ns fn = none) :
    eraseFirst (l₁ ++ l₂) ns fn = l₁ ++ eraseFirst l₂ ns fn := by
  induction l₁ with
  | nil => rfl
  | cons a rest ih =>
    by_cases hmatch : a.ns = ns ∧ a.fn = fn
    · simp [findSpy, hmatch] at hno
    · simp [findSpy, hmatch] at hno
      simp [eraseFirst, hmatch, ih hno]

/-- When at most one record matches any pair, no record left after
`eraseFirst` matches the erased pair. -/
theorem eraseFirst_no_match (l : List Spy) (ns : Nat) (fn : String)
    (hp : l.Pairwise (fun a b => ¬(a.ns = b.ns ∧ a.fn = b.fn))) :
    ∀ s ∈ eraseFirst l ns fn, ¬(s.ns = ns ∧ s.fn = fn) := by
  induction l with
  | nil => simp [eraseFirst]
  | cons a rest ih =>
    rcases List.pairwise_cons.mp hp with ⟨ha, hrest⟩
    by_cases hmatch : a.ns = ns ∧ a.fn = fn
    · simp only [eraseFirst, if_pos hmatch]
      intro s hs hsm
      exact ha s hs ⟨hmatch.1.trans hsm.1.symm, hmatch.2.trans hsm.2.symm⟩
    · simp only [eraseFirst, if_neg hmatch]
      intro s hs
      rcases List.mem_cons.mp hs with rfl | hs'
      · exact hmatch
      · exact ih hrest s hs'

/-- `unspy` on a pair with no record is the identity returning null
(lines 200-212: the loop falls through and nothing is spliced). -/
theorem unspy_of_none (st : St) (ns : Nat) (fn : String)
    (hno : findSpy st.spies ns fn = none) :
    unspy st ns fn = (st, none) := by
  simp [unspy, hno]

/-- `spy` called with an undefined handler: the unconditional `unspy` has
already run when `handler(proxy, bypassed)` raises the TypeError. -/
theorem spy_none (st : St) (ns : Nat) (fn : String) :
    spy st ns fn none = ((unspy st ns fn).1, some Err.notFunction) := rfl

/-- `spy` with a self-targeting factory: the unconditional `unspy` has
already run when line 134 throws, and nothing else has been mutated. -/
theorem spy_self (st : St) (ns : Nat) (fn : String) (hf : Factory)
    (hs : (mkBypassed hf.targets).any (fun b => b.ns = ns ∧ b.fn = fn) = true) :
    spy st ns fn (some hf) = ((unspy st ns fn).1, some Err.selfBypass) := by
  simp only [spy]
  rw [hs]
  rfl

/-- Successful `spy` from a state with no record on the pair: the member
receives a fresh wrapper, the existing records get the new handler saved
into their matching `bypassed` entries, and the new record — whose
`native` is the pre-install member value — is pushed. -/
theorem spy_succ (st : St) (ns : Nat) (fn : String) (hf : Factory)
    (hno : findSpy st.spies ns fn = none)
    (hs : (mkBypassed hf.targets).any (fun b => b.ns = ns ∧ b.fn = fn) = false) :
    spy st ns fn (some hf) =
      ({ mem := setMem st.mem ns fn (Val.wrapper st.fresh),
         spies := st.spies.map (saveIn ns fn hf) ++ [newSpy st ns fn hf],
         fresh := st.fresh + 1,
         log := st.log }, none) := by
  simp only [spy, unspy_of_none st ns fn hno]
  rw [hs]
  rfl

/-- After a successful install from a clean pair, the lookup finds the
newly pushed record. -/
theorem findSpy_after_spy_succ (st : St) (ns : Nat) (fn : String) (hf : Factory)
    (hno : findSpy st.spies ns fn = none) :
    findSpy (st.spies.map (saveIn ns fn hf) ++ [newSpy st ns fn hf]) ns fn
      = some (newSpy st ns fn hf) := by
  rw [findSpy_append_of_none]
  · simp [findSpy, newSpy]
  · rw [findSpy_map_save, hno]
    rfl

/-- `spy` behaves on `st` as on the state left by its own unconditional
`unspy`, as soon as that state has a clean pair. -/
theorem spy_restart_of_none (st : St) (ns : Nat) (fn : String) (h : Option Factory)
    (hn : findSpy (unspy st ns fn).1.spies ns fn = none) :
    spy st ns fn h = spy (unspy st ns fn).1 ns fn h := by
  simp only [spy, unspy_of_none _ ns fn hn]

/-- The round-trip at the heart of claims C2 and C3: from a state with no
record on `(ns, fn)`, install (with any handler, also a failing one) then
restore, and the member is back to its pre-install value. -/
theorem roundtrip_clean (st : St) (ns : Nat) (fn : String) (h : Option Factory)
    (hno : findSpy st.spies ns fn = none) :
    (unspy (spy st ns fn h).1 ns fn).1.mem ns fn = st.mem ns fn := by
  match h with
  | none =>
    rw [spy_none, unspy_of_none st ns fn hno, unspy_of_none st ns fn hno]
  | some hf =>
    rcases hcond : (mkBypassed hf.targets).any (fun b => b.ns = ns ∧ b.fn = fn) with _ | _
    · rw [spy_succ st ns fn hf hno hcond]
      simp only [unspy, findSpy_after_spy_succ st ns fn hf hno, setMem_same]
      simp [newSpy, setMem_same]
    · rw [spy_self st ns fn hf hcond, unspy_of_none st ns fn hno,
        unspy_of_none st ns fn hno]

/-
Preservation of the one-record-per-pair invariant.
-/

/-- After an `unspy` of `(ns, fn)` from a state satisfying the invariant,
no remaining record concerns `(ns, fn)`. -/
theorem unspy_no_match (st : St) (ns : Nat) (fn : String) (hI : atMostOne st) :
    ∀ s ∈ (unspy st ns fn).1.spies, ¬(s.ns = ns ∧ s.fn = fn) := by
  rcases hfind : findSpy st.spies ns fn with _ | s0
  · rw [unspy_of_none st ns fn hfind]
    exact (findSpy_eq_none_iff st.spies ns fn).mp hfind
  · simp only [unspy, hfind]
    exact eraseFirst_no_match st.spies ns fn hI

/-- Restated with `findSpy`. -/
theorem findSpy_unspy_none (st : St) (ns : Nat) (fn : String) (hI : atMostOne st) :
    findSpy (unspy st ns fn).1.spies ns fn = none :=
  (findSpy_eq_none_iff _ ns fn).mpr (unspy_no_match st ns fn hI)

/-- `unspy` preserves the invariant: it only removes a record. -/
theorem atMostOne_unspy (st : St) (ns : Nat) (fn : String) (hI : atMostOne st) :
    atMostOne (unspy st ns fn).1 := by
  rcases hfind : findSpy st.spies ns fn with _ | s0
  · rw [unspy_of_none st ns fn hfind]
    exact hI
  · simp only [atMostOne, unspy, hfind]
    exact List.Pairwise.sublist (eraseFirst_sublist st.spies ns fn) hI

/-- Under the invariant, `spy` behaves on `st` as it does on the state left
by its own unconditional `unspy`, whose pair is clean. -/
theorem spy_restart (st : St) (ns : Nat) (fn : String) (h : Option Factory)
    (hI : atMostOne st) :
    spy st ns fn h = spy (unspy st ns fn).1 ns fn h := by
  simp only [spy, unspy_of_none _ ns fn (findSpy_unspy_none st ns fn hI)]

/-- `spy` preserves the invariant: the pair is first cleaned, and the one
new record appended concerns exactly that pair. -/
theorem atMostOne_spy (st : St) (ns : Nat) (fn : String) (h : Option Factory)
    (hI : atMostOne st) :
    atMostOne (spy st ns fn h).1 := by
  rw [spy_restart st ns fn h hI]
  have hno : findSpy (unspy st ns fn).1.spies ns fn = none :=
    findSpy_unspy_none st ns fn hI
  have hI1 : atMostOne (unspy st ns fn).1 := atMostOne_unspy st ns fn hI
  match h with
  | none =>
    rw [spy_none, unspy_of_none _ ns fn hno]
    exact hI1
  | some hf =>
    rcases hcond : (mkBypassed hf.targets).any (fun b => b.ns = ns ∧ b.fn = fn)
      with _ | _
    · rw [spy_succ _ ns fn hf hno hcond]
      simp only [atMostOne, List.pairwise_append]
      refine ⟨?_, List.pairwise_singleton _ _, ?_⟩
      · rw [List.pairwise_map]
        exact hI1
      · intro a ha b hb
        rcases List.mem_map.mp ha with ⟨s, hs, rfl⟩
        rcases List.mem_singleton.mp hb with rfl
        intro hcontra
        exact ((findSpy_eq_none_iff _ ns fn).mp hno) s hs ⟨hcontra.1, hcontra.2⟩
    · rw [spy_self _ ns fn hf hcond, unspy_of_none _ ns fn hno]
      exact hI1

/-- `unspyAll` preserves the invariant: the registry is emptied. -/
theorem atMostOne_unspyAll (st : St) : atMostOne (unspyAll st) := by
  simp [atMostOne, unspyAll]

/-- The log does not carry the invariant. -/
theorem atMostOne_pushLog (st : St) (e : Event) (hI : atMostOne st) :
    atMostOne (pushLog st e) := hI

/-- The suppression loop preserves the invariant. -/
theorem atMostOne_unspyTargets (bs : List BypassEntry) (st : St)
    (hI : atMostOne st) : atMostOne (unspyTargets st bs) := by
  induction bs generalizing st with
  | nil => exact hI
  | cons b rest ih =>
    exact ih _ (atMostOne_unspy st b.ns b.fn hI)

/-- The reinstallation loop preserves the invariant. -/
theorem atMostOne_reinstall (bs : List BypassEntry) (st : St)
    (hI : atMostOne st) : atMostOne (reinstallTargets st bs).1 := by
  induction bs generalizing st with
  | nil => exact hI
  | cons b rest ih =>
    rcases hb : spy st b.ns b.fn b.handler with ⟨st1, e⟩
    have h1 : atMostOne st1 := by
      have := atMostOne_spy st b.ns b.fn b.handler hI
      rwa [hb] at this
    match e with
    | none => simpa only [reinstallTargets, hb] using ih st1 h1
    | some err => simpa only [reinstallTargets, hb] using h1

/-- A replacement body preserves the invariant whenever member invocation
does. -/
theorem atMostOne_runBody (call : St → Val → St × CallRes)
    (hcall : ∀ st v, atMostOne st → atMostOne (call st v).1)
    (b : Body) (st : St) (hI : atMostOne st) :
    atMostOne (runBody call st b).1 := by
  induction b generalizing st with
  | ret => exact hI
  | throwB => exact hI
  | emit l k ih => exact ih _ (atMostOne_pushLog st _ hI)
  | callMember ns fn k ih =>
    rcases hc : call st (st.mem ns fn) with ⟨st1, r⟩
    have h1 : atMostOne st1 := by
      have := hcall st (st.mem ns fn) hI
      rwa [hc] at this
    match r with
    | CallRes.ok => simpa only [runBody, hc] using ih st1 h1
    | CallRes.exn e => simpa only [runBody, hc] using h1
    | CallRes.stuck => simpa only [runBody, hc] using h1

/-- Invoking any member value preserves the invariant, for any fuel. -/
theorem atMostOne_callVal (fuel : Nat) (st : St) (v : Val)
    (hI : atMostOne st) : atMostOne (callVal fuel st v).1 := by
  induction fuel generalizing st v with
  | zero => exact hI
  | succ fuel ih =>
    match v with
    | Val.native id => exact atMostOne_pushLog st _ hI
    | Val.undefV => exact hI
    | Val.wrapper wid =>
      rcases hfind : st.spies.find? (fun s => s.wrapId = wid) with _ | s
      · simpa only [callVal, hfind] using hI
      · have h1 : atMostOne (unspyTargets st s.bypassed) :=
          atMostOne_unspyTargets s.bypassed st hI
        rcases hrb : runBody (callVal fuel) (unspyTargets st s.bypassed) s.body
          with ⟨st2, r⟩
        have h2 : atMostOne st2 := by
          have := atMostOne_runBody (callVal fuel) ih s.body _ h1
          rwa [hrb] at this
        match r with
        | CallRes.ok =>
          rcases hri : reinstallTargets st2 s.bypassed with ⟨st3, e⟩
          have h3 : atMostOne st3 := by
            have := atMostOne_reinstall s.bypassed st2 h2
            rwa [hri] at this
          match e with
          | none => simpa only [callVal, hfind, hrb, hri] using h3
          | some err => simpa only [callVal, hfind, hrb, hri] using h3
        | CallRes.exn e => simpa only [callVal, hfind, hrb] using h2
        | CallRes.stuck => simpa only [callVal, hfind, hrb] using h2

/-- Every operation preserves the invariant. -/
theorem atMostOne_runOp (st : St) (op : Op) (hI : atMostOne st) :
    atMostOne (runOp st op) := by
  match op with
  | Op.ospy ns fn h => exact atMostOne_spy st ns fn h hI
  | Op.ounspy ns fn => exact atMostOne_unspy st ns fn hI
  | Op.ounspyAll => exact atMostOne_unspyAll st
  | Op.ocall fuel ns fn => exact atMostOne_callVal fuel st (st.mem ns fn) hI

/-- Every state reachable from module load satisfies the invariant. -/
theorem atMostOne_reachable (m : Nat → String → Val) (ops : List Op) :
    atMostOne (runOps (initSt m) ops) := by
  have h : ∀ st, atMostOne st → atMostOne (runOps st ops) := by
    induction ops with
    | nil => exact fun st h => h
    | cons op rest ih =>
      exact fun st h => ih (runOp st op) (atMostOne_runOp st op h)
  exact h (initSt m) (List.Pairwise.nil)

/-- Installing twice in succession on a pair that was clean, then restoring
once, recovers the pre-first-install member value — the second install
first restores the record left by the first. -/
theorem double_roundtrip (st : St) (ns : Nat) (fn : String)
    (g1 g2 : Option Factory) (hno : findSpy st.spies ns fn = none) :
    (unspy (spy (spy st ns fn g1).1 ns fn g2).1 ns fn).1.mem ns fn
      = st.mem ns fn := by
  match g1 with
  | none =>
    rw [spy_none, unspy_of_none st ns fn hno]
    exact roundtrip_clean st ns fn g2 hno
  | some hf =>
    rcases hcond : (mkBypassed hf.targets).any (fun b => b.ns = ns ∧ b.fn = fn)
      with _ | _
    · have h1 : (spy st ns fn (some hf)).1.spies
          = st.spies.map (saveIn ns fn hf) ++ [newSpy st ns fn hf] := by
        rw [spy_succ st ns fn hf hno hcond]
      have h2 : (spy st ns fn (some hf)).1.mem
          = setMem st.mem ns fn (Val.wrapper st.fresh) := by
        rw [spy_succ st ns fn hf hno hcond]
      have herase : eraseFirst
          (st.spies.map (saveIn ns fn hf) ++ [newSpy st ns fn hf]) ns fn
          = st.spies.map (saveIn ns fn hf) := by
        rw [eraseFirst_append_of_none]
        · simp [eraseFirst, newSpy]
        · rw [findSpy_map_save, hno]
          rfl
      have hmapnone : findSpy (st.spies.map (saveIn ns fn hf)) ns fn = none := by
        rw [findSpy_map_save, hno]
        rfl
      have hfind' : findSpy (spy st ns fn (some hf)).1.spies ns fn
          = some (newSpy st ns fn hf) := by
        rw [h1]
        exact findSpy_after_spy_succ st ns fn hf hno
      have hstu_none :
          findSpy (unspy (spy st ns fn (some hf)).1 ns fn).1.spies ns fn = none := by
        simp only [unspy, hfind']
        rw [h1, herase]
        exact hmapnone
      have hstu_mem :
          (unspy (spy st ns fn (some hf)).1 ns fn).1.mem ns fn = st.mem ns fn := by
        simp only [unspy, hfind', setMem_same]
        simp [newSpy]
      rw [spy_restart_of_none _ ns fn g2 hstu_none,
        roundtrip_clean _ ns fn g2 hstu_none, hstu_mem]
    · rw [spy_self st ns fn hf hcond, unspy_of_none st ns fn hno]
      exact roundtrip_clean st ns fn g2 hno

/-- Installing on an already-intercepted pair first fully restores the
prior record: an install followed by one restore leaves the member at the
ORIGINAL of the prior record (the true native), for any handler. -/
theorem spy_on_active_roundtrip (st : St) (ns : Nat) (fn : String) (s0 : Spy)
    (h : Option Factory) (hI : atMostOne st)
    (hfind : findSpy st.spies ns fn = some s0) :
    (unspy (spy st ns fn h).1 ns fn).1.mem ns fn = s0.native := by
  rw [spy_restart st ns fn h hI]
  rw [roundtrip_clean _ ns fn h (findSpy_unspy_none st ns fn hI)]
  simp [unspy, hfind, setMem_same]

/-- The write-back loop of `unspyAll` does not touch pairs no record
concerns. -/
theorem foldl_setMem_no_match (l : List Spy) (m : Nat → String → Val)
    (ns : Nat) (fn : String)
    (h : ∀ s ∈ l, ¬(s.ns = ns ∧ s.fn = fn)) :
    (l.foldl (fun acc s => setMem acc s.ns s.fn s.native) m) ns fn = m ns fn := by
  induction l generalizing m with
  | nil => rfl
  | cons a rest ih =>
    rw [List.foldl_cons, ih _ (fun s hs => h s (List.mem_cons_of_mem a hs)),
      setMem_other]
    intro hc
    exact h a (List.mem_cons_self a rest) ⟨hc.1.symm, hc.2.symm⟩

/-- Under the invariant, the write-back loop of `unspyAll` leaves every
recorded pair at the original of its record. -/
theorem foldl_setMem_mem (l : List Spy) (m : Nat → String → Val) (s : Spy)
    (hp : l.Pairwise (fun a b => ¬(a.ns = b.ns ∧ a.fn = b.fn)))
    (hs : s ∈ l) :
    (l.foldl (fun acc s => setMem acc s.ns s.fn s.native) m) s.ns s.fn
      = s.native := by
  induction l generalizing m with
  | nil => cases hs
  | cons a rest ih =>
    rcases List.pairwise_cons.mp hp with ⟨ha, hrest⟩
    rcases List.mem_cons.mp hs with rfl | hs'
    · rw [List.foldl_cons,
        foldl_setMem_no_match rest _ s.ns s.fn
          (fun b hb hc => ha b hb ⟨hc.1.symm, hc.2.symm⟩),
        setMem_same]
    · rw [List.foldl_cons]
      exact ih _ hrest hs'


/-- Pushing targets into the `bypassed` array preserves which pairs are
named: the self-bypass test of line 133 coincides with a test on the
declared targets. -/
theorem any_mkBypassed (ts : List Target) (ns : Nat) (fn : String) :
    (mkBypassed ts).any (fun b => b.ns = ns ∧ b.fn = fn)
      = ts.any (fun t => t.ns = ns ∧ t.fn = fn) := by
  induction ts with
  | nil => rfl
  | cons t rest ih =>
    simp only [mkBypassed, List.map_cons, List.any_cons] at ih ⊢
    rw [ih]

/-
The claims.
-/

/-- Claim C1.  The claim states that `retreive(owner, memberName)` returns
the `originalFunction` captured at install time for every pair with an
active record.  The code disagrees with the claim and with its own doc
comment ("Retreive the original native function being spied on", returns
"the native function"): line 183 returns `spies[i].namespace[fnName]`, the
CURRENT member, which while the record is active is the installed wrapper,
not the captured original.  This theorem evaluates the code at the failing
input of the spec scenario: after `spy(document, "querySelector", f)` from
a store where the member held native function 7, `retreive` returns the
wrapper installed by `spy`, the record itself still holds the original
native 7, and the two values are distinct.  (That `retreive` mutates no
state is visible from its type `St → Nat → String → Option Val`.) -/
theorem c1_retreive_returns_wrapper :
    retreive stQ 0 "querySelector" = some (Val.wrapper 0) ∧
    (findSpy stQ.spies 0 "querySelector").map Spy.native
      = some (Val.native 7) ∧
    Val.wrapper 0 ≠ Val.native 7 := by decide

/-- Claim C2 (amended).  After `install` then `restore` on a pair that had
NO active record at install time, `owner[memberName]` is reference-identical
to its value immediately before the install, for every state, pair and
factory — including factories whose install fails.  (The amendment adds the
no-active-record proviso: when a record is already active, line 115 of
`spy` unconditionally restores it first, so the round trip ends at that
prior record's original rather than at the pre-install member value, which
was the prior wrapper; see the counterexample.) -/
theorem c2_install_restore_roundtrip (st : St) (ns : Nat) (fn : String)
    (h : Option Factory) (hno : findSpy st.spies ns fn = none) :
    (unspy (spy st ns fn h).1 ns fn).1.mem ns fn = st.mem ns fn :=
  roundtrip_clean st ns fn h hno

/-- Witness for C2: performed on the concrete initial store `m0`. -/
theorem c2_install_restore_roundtrip_witness :
    findSpy (initSt m0).spies 0 "outer" = none ∧
    (unspy (spy (initSt m0) 0 "outer" (some h1)).1 0 "outer").1.mem 0 "outer"
      = (initSt m0).mem 0 "outer" :=
  ⟨rfl, c2_install_restore_roundtrip (initSt m0) 0 "outer" (some h1) rfl⟩

/-- Counterexample to C2 as stated: on `stR1` the pair (0, "outer") is
already intercepted and the member holds wrapper 0; installing a fresh
replacement (whose factory touches nothing) and restoring once leaves the
member at native 100 — the original of the prior record — which is not the
value held immediately before the install. -/
theorem c2_roundtrip_cex :
    stR1.mem 0 "outer" = Val.wrapper 0 ∧
    (unspy (spy stR1 0 "outer" (some h2)).1 0 "outer").1.mem 0 "outer"
      = Val.native 100 ∧
    Val.native 100 ≠ Val.wrapper 0 := by decide

/-- Claim C3.  (1) Every state reachable from module load by any sequence
of installs, restores, bulk restores and member invocations has at most
one active record per (owner, memberName) pair.  (2) Installing twice in
succession on a pair that was clean before the first install, then
restoring once, leaves the member at its pre-first-install value, with no
replacement layering — for arbitrary handlers, including failing ones.
(3) Installing on an already-intercepted pair first fully restores the
prior record: install followed by one restore leaves the member at the
prior record's original. -/
theorem c3_at_most_one_record :
    (∀ (m : Nat → String → Val) (ops : List Op),
        atMostOne (runOps (initSt m) ops)) ∧
    (∀ (st : St) (ns : Nat) (fn : String) (g1 g2 : Option Factory),
        findSpy st.spies ns fn = none →
        (unspy (spy (spy st ns fn g1).1 ns fn g2).1 ns fn).1.mem ns fn
          = st.mem ns fn) ∧
    (∀ (st : St) (ns : Nat) (fn : String) (s0 : Spy) (h : Option Factory),
        atMostOne st → findSpy st.spies ns fn = some s0 →
        (unspy (spy st ns fn h).1 ns fn).1.mem ns fn = s0.native) :=
  ⟨atMostOne_reachable,
   fun st ns fn g1 g2 hno => double_roundtrip st ns fn g1 g2 hno,
   fun st ns fn s0 h hI hfind => spy_on_active_roundtrip st ns fn s0 h hI hfind⟩

/-- Witness for C3 at concrete inputs: a reachable two-install state keeps
the invariant; the double install round trip on the concrete store `m0`
recovers native 100; installing over the active record of `stR1` and
restoring recovers that record's original. -/
theorem c3_at_most_one_record_witness :
    atMostOne (runOps (initSt m0)
      [Op.ospy 0 "outer" (some h1), Op.ospy 1 "inner" (some h2),
       Op.ocall 10 0 "outer"]) ∧
    (findSpy (initSt m0).spies 0 "outer" = none ∧
      (unspy (spy (spy (initSt m0) 0 "outer" (some h1)).1 0 "outer"
        (some h2)).1 0 "outer").1.mem 0 "outer" = (initSt m0).mem 0 "outer") ∧
    (atMostOne stR1 ∧
      findSpy stR1.spies 0 "outer" = some (newSpy (initSt m0) 0 "outer" h1) ∧
      (unspy (spy stR1 0 "outer" (some h2)).1 0 "outer").1.mem 0 "outer"
        = (newSpy (initSt m0) 0 "outer" h1).native) :=
  ⟨c3_at_most_one_record.1 m0
      [Op.ospy 0 "outer" (some h1), Op.ospy 1 "inner" (some h2),
       Op.ocall 10 0 "outer"],
   ⟨rfl, c3_at_most_one_record.2.1 (initSt m0) 0 "outer" (some h1) (some h2) rfl⟩,
   ⟨by decide, by decide,
    c3_at_most_one_record.2.2 stR1 0 "outer" (newSpy (initSt m0) 0 "outer" h1)
      (some h2) (by decide) (by decide)⟩⟩

/-- Claim C4.  Suppression scenario on the concrete states built from
`m0`: R1 is installed on (A, "outer") with suppression target (B, "inner")
and a replacement that performs its logic (action 1) and then calls
B.inner; R2 is installed on (B, "inner") afterwards with logic tagged 2.
The call `A.outer()` returns normally; R2's logic executes zero times
during it even though B.inner's native function 101 is invoked exactly
once from inside R1's replacement; and the direct call `B.inner()` made
afterwards executes R2's logic exactly once. -/
theorem c4_suppression_scenario :
    outerCall.2 = CallRes.ok ∧
    countE (Event.ecall 2) stR12.log = 0 ∧
    countE (Event.ecall 2) outerCall.1.log = 0 ∧
    countE (Event.enat 101) outerCall.1.log = 1 ∧
    innerCall.2 = CallRes.ok ∧
    countE (Event.ecall 2) innerCall.1.log = 1 := by decide

/-- Claim C5.  The claim states that when a replacement with a non-empty
suppression list throws, every suppressed target is reinstalled before the
exception propagates.  The code disagrees: lines 161-167 run the
reinstallation loop only after `theSpy.apply` returns — there is no
try/finally — so a throw skips it.  Evaluated at the failing input: on
`stT12` the pair (B, "inner") is intercepted (wrapper 1); the throwing
`A.outer()` call propagates the exception, and afterwards (B, "inner") has
NO interception record and its member is the bare native 101 — the
suppression was never unwound. -/
theorem c5_throw_skips_reinstall :
    retreive stT12 1 "inner" = some (Val.wrapper 1) ∧
    outerThrowCall.2 = CallRes.exn Err.userThrow ∧
    retreive outerThrowCall.1 1 "inner" = none ∧
    outerThrowCall.1.mem 1 "inner" = Val.native 101 := by decide

/-- Claim C6.  The claim states that a suppressed target with no active
record is tolerated as a silent no-op.  The suppression loop does tolerate
it (`unspy` on a clean pair is a no-op), but the reinstallation loop does
not: it calls `spy(bypass.namespace, bypass.fn, bypass.handler)` with
`bypass.handler` still undefined — no install on the target ever saved a
handler — and `handler(proxy, bypassed)` at line 129 raises a TypeError.
Evaluated at the failing input: on `stR1` the target (B, "inner") was
never installed (`retreive` absent); invoking `A.outer()` runs R1's logic
once, leaves the target's member unchanged, but propagates the TypeError
instead of completing without error. -/
theorem c6_missing_target_throws :
    retreive stR1 1 "inner" = none ∧
    outerAloneCall.2 = CallRes.exn Err.notFunction ∧
    countE (Event.ecall 1) outerAloneCall.1.log = 1 ∧
    outerAloneCall.1.mem 1 "inner" = Val.native 101 := by decide

/-- Claim C7 (amended).  `install` with a factory that names its own
(owner, memberName) among its suppression targets always fails with the
self-suppression error; and provided NO record was active on the pair, the
state — registry and members — is left exactly unchanged.  (The amendment
adds the proviso: when a record was active, line 115 of `spy` has already
restored and removed it by the time line 134 throws, so the failed install
does mutate `owner[memberName]` and the registry; see the
counterexample.) -/
theorem c7_self_suppression (st : St) (ns : Nat) (fn : String) (hf : Factory)
    (hs : selfTargets hf ns fn = true) :
    (spy st ns fn (some hf)).2 = some Err.selfBypass ∧
    (findSpy st.spies ns fn = none → (spy st ns fn (some hf)).1 = st) := by
  have hb : (mkBypassed hf.targets).any (fun b => b.ns = ns ∧ b.fn = fn) = true := by
    rw [any_mkBypassed]
    exact hs
  constructor
  · rw [spy_self st ns fn hf hb]
  · intro hno
    rw [spy_self st ns fn hf hb, unspy_of_none st ns fn hno]

/-- Witness for C7: the self-targeting factory `hself` on the clean store
`m0` fails and leaves the whole state unchanged. -/
theorem c7_self_suppression_witness :
    selfTargets hself 0 "outer" = true ∧
    findSpy (initSt m0).spies 0 "outer" = none ∧
    (spy (initSt m0) 0 "outer" (some hself)).2 = some Err.selfBypass ∧
    (spy (initSt m0) 0 "outer" (some hself)).1 = initSt m0 :=
  ⟨rfl, rfl, (c7_self_suppression (initSt m0) 0 "outer" hself rfl).1,
   (c7_self_suppression (initSt m0) 0 "outer" hself rfl).2 rfl⟩

/-- Counterexample to C7 as stated: on `stR1` a record is active on
(0, "outer") and the member holds wrapper 0; the self-suppressing install
does fail with the self-suppression error, but the member has been reset
to native 100 and the registry emptied — the failure is not mutation-free. -/
theorem c7_self_suppression_cex :
    (spy stR1 0 "outer" (some hself)).2 = some Err.selfBypass ∧
    stR1.mem 0 "outer" = Val.wrapper 0 ∧
    (spy stR1 0 "outer" (some hself)).1.mem 0 "outer" = Val.native 100 ∧
    stR1.spies.length = 1 ∧
    (spy stR1 0 "outer" (some hself)).1.spies.length = 0 := by decide

/-- Claim C8 (amended).  For every record and proxy call: a non-Array
first argument is forwarded as the sole argument; an Array first argument
is forwarded positionally preserving order; an omitted context
(`undefined`) defaults the receiver to the record's owner; a TRUTHY given
context is used as the receiver (the amendment: the code tests
`context || namespace`, so a falsy given context — `false`, `null`, `0`,
the empty string — also falls back to the owner; see the counterexample);
and the proxy returns the native call's value unmodified. -/
theorem c8_proxy_forwarding (nsV a c : JVal)
    (native : JVal → List JVal → JVal) :
    (isArr a = false → (proxyCall nsV a c).args = [a]) ∧
    (∀ xs : List JVal, (proxyCall nsV (JVal.arrV xs) c).args = xs) ∧
    (proxyCall nsV a JVal.undef).ctx = nsV ∧
    (truthy c = true → (proxyCall nsV a c).ctx = c) ∧
    proxyRun native nsV a c
      = native (proxyCall nsV a c).ctx (proxyCall nsV a c).args := by
  refine ⟨?_, fun _ => rfl, rfl, ?_, rfl⟩
  · intro h
    cases a
    case arrV => simp [isArr] at h
    all_goals rfl
  · intro h
    simp [proxyCall, h]

/-- Witness for C8: a string argument forwarded as sole argument, and a
truthy explicit context used as receiver. -/
theorem c8_proxy_forwarding_witness :
    (isArr (JVal.strV "q") = false ∧
      (proxyCall (JVal.objV 0) (JVal.strV "q") JVal.undef).args
        = [JVal.strV "q"]) ∧
    (truthy (JVal.objV 5) = true ∧
      (proxyCall (JVal.objV 0) (JVal.strV "q") (JVal.objV 5)).ctx
        = JVal.objV 5) :=
  ⟨⟨rfl, (c8_proxy_forwarding (JVal.objV 0) (JVal.strV "q") JVal.undef
      (fun _ _ => JVal.undef)).1 rfl⟩,
   ⟨rfl, (c8_proxy_forwarding (JVal.objV 0) (JVal.strV "q") (JVal.objV 5)
      (fun _ _ => JVal.undef)).2.2.2.1 rfl⟩⟩

/-- Counterexample to C8 as stated: the context `false` is given — it is
neither omitted nor `undefined` — yet the receiver used is the owner
object, not the given context. -/
theorem c8_falsy_context_cex :
    (proxyCall (JVal.objV 3) (JVal.strV "x") (JVal.boolV false)).ctx
      = JVal.objV 3 ∧
    JVal.boolV false ≠ JVal.undef ∧
    JVal.boolV false ≠ JVal.objV 3 := by
  refine ⟨rfl, ?_, ?_⟩ <;> intro h <;> exact JVal.noConfusion h

/-- Claim C9.  `restoreAll` empties the registry; afterwards `retrieve`
returns absent for every pair; each recorded pair is left at the original
of its record (under the per-pair uniqueness invariant, which every
reachable state satisfies by C3); and pairs no record concerns keep their
member value.  The write-back runs in installation order (the fold over
the `spies` array in order). -/
theorem c9_restoreAll (st : St) :
    (unspyAll st).spies = [] ∧
    (∀ (ns : Nat) (fn : String), retreive (unspyAll st) ns fn = none) ∧
    (atMostOne st →
      ∀ s ∈ st.spies, (unspyAll st).mem s.ns s.fn = s.native) ∧
    (∀ (ns : Nat) (fn : String), findSpy st.spies ns fn = none →
      (unspyAll st).mem ns fn = st.mem ns fn) := by
  refine ⟨rfl, fun ns fn => rfl, ?_, ?_⟩
  · intro hI s hs
    exact foldl_setMem_mem st.spies st.mem s hI hs
  · intro ns fn hno
    exact foldl_setMem_no_match st.spies st.mem ns fn
      ((findSpy_eq_none_iff st.spies ns fn).mp hno)

/-- Witness for C9 on the concrete two-record state `stR12`. -/
theorem c9_restoreAll_witness :
    (unspyAll stR12).spies = [] ∧
    retreive (unspyAll stR12) 1 "inner" = none ∧
    (atMostOne stR12 ∧
      ∀ s ∈ stR12.spies, (unspyAll stR12).mem s.ns s.fn = s.native) ∧
    (findSpy stR12.spies 2 "other" = none ∧
      (unspyAll stR12).mem 2 "other" = stR12.mem 2 "other") :=
  ⟨(c9_restoreAll stR12).1,
   (c9_restoreAll stR12).2.1 1 "inner",
   ⟨by decide, (c9_restoreAll stR12).2.2.1 (by decide)⟩,
   ⟨by decide, (c9_restoreAll stR12).2.2.2 2 "other" (by decide)⟩⟩

/-- Claim C10 (amended).  An Array first argument is always spread: the
native receives exactly the array's elements as positional arguments, so a
bare array can never arrive as the single argument of the native.  However
— contrary to the final part of the claim — the native CAN receive one
Array-valued argument: wrapping the array in a one-element array forwards
it as the sole positional argument (see the counterexample). -/
theorem c10_array_spreading (nsV c : JVal) :
    (∀ xs : List JVal, (proxyCall nsV (JVal.arrV xs) c).args = xs) ∧
    (∀ a : JVal, (proxyCall nsV (JVal.arrV [a]) c).args = [a]) :=
  ⟨fun _ => rfl, fun _ => rfl⟩

/-- Counterexample to C10 as stated: the input `[[1]]` (a one-element
array containing an array) makes the native receive exactly one positional
argument, and that argument is an Array value. -/
theorem c10_wrapped_array_cex :
    (proxyCall (JVal.objV 0)
        (JVal.arrV [JVal.arrV [JVal.numV 1]]) JVal.undef).args
      = [JVal.arrV [JVal.numV 1]] ∧
    isArr (JVal.arrV [JVal.numV 1]) = true ∧
    ((proxyCall (JVal.objV 0)
        (JVal.arrV [JVal.arrV [JVal.numV 1]]) JVal.undef).args).length = 1 :=
  ⟨rfl, rfl, rfl⟩

end SelectorSpy
